import Mathlib

/-!
# Verification development for the kingbrain repository

Shallow embedding of the kingbrain sources:

* `insight/pkg/sg/client.go` — the Sourcegraph GraphQL client with its
  primary/fallback endpoint logic (`sg.New`, `sg.Client.GraphQL`);
* `insight/pkg/cli/find.go` — the `find` subcommand's `RunE`, whose body
  performs Go type assertions on the decoded GraphQL response;
* `insight/pkg/cli/scc.go` — the `scc` subcommand's `RunE`;
* the phase-workflow orchestrator (Path Allowlist Validator, Audit Event
  Emitter, Phase Workflow Engine, Mode/Worldview Switch Coordinator).  The
  orchestrator's implementation is not part of the sources; its behaviour is
  modelled faithfully from the specification and the observable contracts in
  `PR-1/TESTING.md` and the `Makefile` smoke targets.

External effects (HTTP transport, process execution, clocks) are passed in as
explicit oracle functions so that every definition is executable.
-/

/-! ## Sourcegraph GraphQL client (`insight/pkg/sg/client.go`) -/

/-- The `sg.Client` struct: `primary` comes from `SG_URL`, `fallback` from
`LOCAL_SG_ENDPOINT`, `token` from `SG_TOKEN` (environment reads are passed in
as parameters of `newClient`). -/
structure Client where
  primary : String
  fallback : String
  token : String
deriving DecidableEq, Repr

/-- `sg.New()`: builds a client from the three environment variables. -/
def newClient (sgUrl localEndpoint tok : String) : Client :=
  { primary := sgUrl, fallback := localEndpoint, token := tok }

/-- Outcome of one HTTP POST attempt (`doReq` in the Go source) against a
given endpoint: whether the transport returned a non-nil error, the HTTP
status code otherwise, and what decoding the body into `out` would yield
(`none` = decode succeeds). -/
structure AttemptResult where
  transportErr : Bool
  statusCode : Nat
  decodeErr : Option String
deriving DecidableEq, Repr

/-- The guard in `GraphQL`: an attempt is used iff `err == nil` and
`resp.StatusCode < 300`. -/
def attemptOk (r : AttemptResult) : Bool :=
  !r.transportErr && decide (r.statusCode < 300)

/-- The error value `Client.GraphQL` can return: either the decoder's error
for the response body that was accepted, or the final
`errors.New("GraphQL request failed on both primary and fallback endpoints")`. -/
inductive GQLError where
  | decodeFailed (msg : String)
  | bothFailed
deriving DecidableEq, Repr

/-- The tail of `Client.GraphQL`: try the fallback endpoint (when non-empty),
then fall through to the both-failed error.  `tried` accumulates the
endpoints already attempted. -/
def tryFallback (c : Client) (w : String → AttemptResult) (tried : List String) :
    List String × Option GQLError :=
  if c.fallback = "" then (tried, some GQLError.bothFailed)
  else
    let r := w c.fallback
    if attemptOk r then (tried ++ [c.fallback], r.decodeErr.map GQLError.decodeFailed)
    else (tried ++ [c.fallback], some GQLError.bothFailed)

/-- `sg.Client.GraphQL` after the (infallible for string payloads) JSON
marshal: try the primary endpoint when non-empty, use its response iff the
attempt succeeded with status `< 300`, otherwise fall through to the
fallback.  Returns the list of endpoints attempted, in order, together with
the returned error (`none` = nil error, i.e. a body was decoded
successfully). The oracle `w` gives the outcome of an attempt against each
endpoint. -/
def graphQL (c : Client) (w : String → AttemptResult) :
    List String × Option GQLError :=
  if c.primary = "" then tryFallback c w []
  else
    let r := w c.primary
    if attemptOk r then ([c.primary], r.decodeErr.map GQLError.decodeFailed)
    else tryFallback c w [c.primary]

/-- The condition under which the Go code reaches the fallback request:
fallback configured, and the primary was absent, errored, or answered with
status `>= 300`. -/
def fallbackTried (c : Client) (w : String → AttemptResult) : Bool :=
  c.fallback ≠ "" && (c.primary == "" || !attemptOk (w c.primary))

/-! ## JSON values and the `find` subcommand (`insight/pkg/cli/find.go`) -/

/-- A decoded JSON value as Go's `encoding/json` produces it into `any`:
objects become `map[string]any`, arrays `[]any`, absent keys read as `nil`
(modelled by `null`). -/
inductive JSON where
  | null
  | bool (b : Bool)
  | num (n : Int)
  | str (s : String)
  | arr (elems : List JSON)
  | obj (fields : List (String × JSON))

/-- Go map indexing `m[k]` on a decoded object: the value when the key is
present, the `nil` interface (here `JSON.null`) otherwise. -/
def jlookup (o : List (String × JSON)) (k : String) : JSON :=
  match o.find? (fun kv => kv.1 == k) with
  | some kv => kv.2
  | none => JSON.null

/-- The Go type assertion `x.(map[string]any)`: yields the fields when `x`
is an object, otherwise panics (modelled as `Except.error ()`). -/
def assertObj : JSON → Except Unit (List (String × JSON))
  | JSON.obj fields => Except.ok fields
  | _ => Except.error ()

/-- The Go type assertion `x.([]any)`: yields the elements when `x` is an
array, otherwise panics. -/
def assertArr : JSON → Except Unit (List JSON)
  | JSON.arr elems => Except.ok elems
  | _ => Except.error ()

/-- The inner loop of `find`'s `RunE` over `fm["lineMatches"].([]any)`:
each element is asserted to be a map (`lm.(map[string]any)`); its
`lineNumber` and `preview` fields are only printed with `%v`/`%s`, which
never panics. -/
def printLineMatches : List JSON → Except Unit Unit
  | [] => Except.ok ()
  | lm :: rest => do
    let _ ← assertObj lm
    printLineMatches rest

/-- One iteration of `find`'s loop over `results["results"].([]any)`:
`item.(map[string]any)`, then `fm["file"].(map[string]any)` (whose `path`
is only printed), then `fm["lineMatches"].([]any)` with its own loop. -/
def printFileMatch (item : JSON) : Except Unit Unit := do
  let fm ← assertObj item
  let _ ← assertObj (jlookup fm "file")
  let lms ← assertArr (jlookup fm "lineMatches")
  printLineMatches lms

/-- The loop over all file-match items. -/
def printAllMatches : List JSON → Except Unit Unit
  | [] => Except.ok ()
  | item :: rest => do
    printFileMatch item
    printAllMatches rest

/-- The body of `find`'s `RunE` after a successful GraphQL decode into
`out : map[string]any`: the chain of unchecked type assertions
`out["data"].(map[string]any)`, `data["search"].(map[string]any)`,
`search["results"].(map[string]any)`, then `results["results"].([]any)` and
the per-item assertions.  `results["matchCount"]` is printed with `%v` and
carries no type assertion.  `Except.error ()` models a Go panic. -/
def findRunE (out : List (String × JSON)) : Except Unit Unit := do
  let data ← assertObj (jlookup out "data")
  let search ← assertObj (jlookup data "search")
  let results ← assertObj (jlookup search "results")
  let items ← assertArr (jlookup results "results")
  printAllMatches items

/-- The expected nesting of a search response, excluding `matchCount`:
object `data`, object `search`, object `results`, array `results`, and each
item an object whose `file` is an object and whose `lineMatches` is an array
of objects.  This is exactly the shape on which no type assertion fails. -/
def isObjJ : JSON → Bool
  | JSON.obj _ => true
  | _ => false

/-- Whether a single file-match item has the asserted shape. -/
def fileMatchOk (item : JSON) : Bool :=
  match item with
  | JSON.obj fm =>
    isObjJ (jlookup fm "file") &&
      (match jlookup fm "lineMatches" with
       | JSON.arr lms => lms.all isObjJ
       | _ => false)
  | _ => false

/-- The full well-shapedness predicate for `findRunE` (no mention of
`matchCount`). -/
def wellNested (out : List (String × JSON)) : Bool :=
  match jlookup out "data" with
  | JSON.obj data =>
    match jlookup data "search" with
    | JSON.obj search =>
      match jlookup search "results" with
      | JSON.obj results =>
        match jlookup results "results" with
        | JSON.arr items => items.all fileMatchOk
        | _ => false
      | _ => false
    | _ => false
  | _ => false

/-- A response whose `results` object lacks the `matchCount` key but is
otherwise exactly the expected shape. -/
def respNoMatchCount : List (String × JSON) :=
  [("data", JSON.obj
     [("search", JSON.obj
        [("results", JSON.obj
           [("results", JSON.arr [])])])])]

/-! ## The `scc` subcommand (`insight/pkg/cli/scc.go`) -/

/-- Target selection in `scc`'s `RunE`: `target := "."` overridden by the
first positional argument when present. -/
def sccTarget : List String → String
  | [] => "."
  | a :: _ => a

/-- Outcome of `exec.Command("scc", "--ci", target).CombinedOutput()`:
the combined output, and the non-nil error if the execution failed. -/
structure ExecResult where
  output : String
  execErr : Option String
deriving DecidableEq, Repr

/-- The body of `scc`'s `RunE`: pick the target, run the external `scc --ci
<target>` process (oracle `w`, keyed by target); on error return it, on
success log `"\n" + out` and return nil.  Result: (what was logged, the
returned error). -/
def sccRunE (w : String → ExecResult) (args : List String) :
    Option String × Option String :=
  let r := w (sccTarget args)
  match r.execErr with
  | some e => (none, some e)
  | none => (some ("\n" ++ r.output), none)

/-! ## Path Allowlist Validator

The orchestrator's implementation is not among the sources; only its tests
(`PR-1/TESTING.md`), deployment targets (`Makefile`) and protocol documents
(`.collab/aicollab-rules.md`) are.  The validator, emitter, engine and
coordinator below are therefore modelled from the specification. -/

/-- Modelled from the spec: `PathError{Denied|NotAllowlisted}` — the failure
kinds of the Path Allowlist Validator (normalization failures are a third
kind, `Escaped`, not needed by the claims below which concern already
normalized paths). -/
inductive PathError where
  | denied (pattern : String)
  | notAllowlisted
deriving DecidableEq, Repr

/-- Modelled from the spec: `AllowRule / DenyRule` — glob-style path
patterns grouped into an allow list and a deny list. -/
structure Rules where
  allow : List String
  deny : List String
deriving DecidableEq, Repr

/-- Modelled from the spec: glob-style pattern matching, sufficient for the
patterns the spec exhibits: a pattern ending in `/**` matches every path
strictly below that directory (e.g. `/.git/**` matches `/.git/config`),
any other pattern matches exactly itself. -/
def matchGlob (p pat : String) : Bool :=
  if "/**".data.isSuffixOf pat.data then
    (pat.data.take (pat.data.length - 2)).isPrefixOf p.data
  else p == pat

/-- Modelled from the spec: the Path Allowlist Validator on one normalized
path, parametric in the pattern matcher `pmatch` (path, pattern).  Deny
rules are checked first and short-circuit with `Denied`; otherwise at least
one allow rule must match, else `NotAllowlisted`.  Pure, no side effects. -/
def validatePath (pmatch : String → String → Bool) (rules : Rules)
    (p : String) : Except PathError Unit :=
  match rules.deny.find? (fun pat => pmatch p pat) with
  | some pat => Except.error (PathError.denied pat)
  | none =>
    if rules.allow.any (fun pat => pmatch p pat) then Except.ok ()
    else Except.error PathError.notAllowlisted

/-- Modelled from the spec: validate a whole request's path list; the first
failing path rejects the entire request (no partial writes). -/
def validatePaths (pmatch : String → String → Bool) (rules : Rules) :
    List String → Except (String × PathError) Unit
  | [] => Except.ok ()
  | p :: ps =>
    match validatePath pmatch rules p with
    | Except.error e => Except.error (p, e)
    | Except.ok () => validatePaths pmatch rules ps

/-! ## Audit Event Emitter -/

/-- Modelled from the spec: `AuditEvent` — unique `id`, dotted versioned
`type`, `source`, `time`, phase-specific `data` payload. -/
structure AuditEvent where
  id : String
  type : String
  source : String
  time : Nat
  data : String
deriving DecidableEq, Repr

/-- Modelled from the spec: the emitter's state — the durable local journal
(append-only, the durability boundary) and the set of event ids already
acknowledged by the downstream sink. -/
structure EmitterState where
  journal : List AuditEvent
  delivered : List String
deriving DecidableEq, Repr

/-- Modelled from the spec: `emit(event)` — the event is durably appended to
the journal before any delivery is attempted (write-ahead discipline); when
the sink is reachable (`sinkUp`) delivery is acknowledged synchronously,
otherwise the event stays pending in the journal for the background sweep.
Returns the event id. -/
def emit (sinkUp : Bool) (ev : AuditEvent) (st : EmitterState) :
    String × EmitterState :=
  let st1 : EmitterState := { st with journal := st.journal ++ [ev] }
  let st2 : EmitterState :=
    if sinkUp then { st1 with delivered := st1.delivered ++ [ev.id] } else st1
  (ev.id, st2)

/-- Modelled from the spec: `get(eventId)` — lookup in the journal, which
succeeds for any event ever appended, delivered or not. -/
def getEvent (st : EmitterState) (i : String) : Option AuditEvent :=
  st.journal.find? (fun e => e.id == i)

/-! ## Phase Workflow Engine -/

/-- Modelled from the spec: the five phases. -/
inductive Phase where
  | ACK
  | PLAN
  | BORROW
  | DIFF
  | CR
deriving DecidableEq, Repr

/-- The phase's wire name. -/
def phaseName : Phase → String
  | Phase.ACK => "ACK"
  | Phase.PLAN => "PLAN"
  | Phase.BORROW => "BORROW"
  | Phase.DIFF => "DIFF"
  | Phase.CR => "CR"

/-- Modelled from the spec: `ModeConfig` — operating mode, events sink, and
the two live pointers (policy-bundle version and access-model id) flipped
together by the Worldview Switch Coordinator. -/
structure ModeConfig where
  mode : String
  eventsSink : String
  bundleVersion : String
  accessModelId : String
deriving DecidableEq, Repr

/-- Modelled from the spec: `WorkflowRequest` — task text, optional notes,
optional declared phase, optional list of paths to write. -/
structure WorkflowRequest where
  task : String
  notes : Option String
  phase : Option Phase
  paths_to_write : List String
deriving DecidableEq, Repr

/-- Modelled from the spec: `PhaseResult`. -/
structure PhaseResult where
  phase : Phase
  written_paths : List String
  evidence_refs : List String
  cloudevent_ids : List String
  ts : Nat
  mode : String
deriving DecidableEq, Repr

/-- Modelled from the spec: the uniform response envelope —
`{workflow_id, run_id, result}` on success, `{error, detail, workflow_id,
event_id}` on failure. -/
inductive Response where
  | success (workflow_id run_id : String) (result : PhaseResult)
  | failure (error detail workflow_id : String) (event_id : Option String)
deriving DecidableEq, Repr

/-- Modelled from the spec: the engine's state — the run-result store keyed
by `(workflow_id, run_id)`, the emitter's state, the files written so far,
an execution counter for the phase body (instrumentation for the
at-most-once property), the fresh-event-id counter, and the clock. -/
structure EngineState where
  results : List ((String × String) × PhaseResult)
  emitter : EmitterState
  files : List String
  execCount : Nat
  nextEventNum : Nat
  now : Nat
deriving DecidableEq, Repr

/-- Lookup in the run-result store. -/
def lookupResult (st : EngineState) (wid rid : String) : Option PhaseResult :=
  (st.results.find? (fun e => e.1.1 == wid && e.1.2 == rid)).map (fun e => e.2)

/-- Modelled from the spec / TESTING.md: the artifact locations each phase
writes (ACK manifest; PLAN document + manifest; BORROW provenance records;
DIFF patch + evidence bundle; CR change record). -/
def phaseArtifacts (ph : Phase) (wid : String) : List String :=
  match ph with
  | Phase.ACK => ["/workspace/docs/kingbrain/ACK/POR-ACK-" ++ wid ++ ".md"]
  | Phase.PLAN => ["/workspace/docs/kingbrain/PLAN/result-" ++ wid ++ ".md",
                   "/workspace/.collab/PLAN/manifest-" ++ wid ++ ".json"]
  | Phase.BORROW => ["/workspace/docs/kingbrain/BORROW/BorrowedArtifacts-" ++ wid ++ ".yaml",
                     "/workspace/docs/kingbrain/BORROW/Sources-" ++ wid ++ ".md"]
  | Phase.DIFF => ["/workspace/docs/kingbrain/DIFF/" ++ wid ++ ".patch",
                   "/workspace/docs/kingbrain/DIFF/Evidence-" ++ wid ++ ".zip"]
  | Phase.CR => ["/workspace/docs/kingbrain/CR/CR-" ++ wid ++ ".yaml"]

/-- Modelled from the spec / TESTING.md: the configured rule sets — deny
`/.git/**`, allow everything under the root. -/
def defaultRules : Rules := { allow := ["/**"], deny := ["/.git/**"] }

/-- The configured repository root (TESTING.md: `repo_root: /workspace`). -/
def repoRoot : String := "/workspace"

/-- Modelled from the spec / TESTING.md: path normalization relative to the
repository root — a requested path under the root is matched by its
root-relative form (`/workspace/.git/config` is matched as `/.git/config`). -/
def stripRoot (root p : String) : String :=
  if root.data.isPrefixOf p.data then (p.data.drop root.data.length).asString
  else p

/-- Fresh event id from the engine's counter. -/
def freshEventId (n : Nat) : String := "event-" ++ toString n

/-- Build an audit event. -/
def mkEvent (n : Nat) (ty : String) (now : Nat) (payload : String) : AuditEvent :=
  { id := freshEventId n, type := ty, source := "kb-orchestrator",
    time := now, data := payload }

/-- The human-readable detail for a path validation failure (format fixed by
the spec's deny example and TESTING.md). -/
def pathErrorDetail (p : String) : PathError → String
  | PathError.denied pat => "Path " ++ p ++ " matches deny pattern: " ++ pat
  | PathError.notAllowlisted => "Path " ++ p ++ " is not allowlisted"

/-- The phase-completion audit event for one execution of the phase body. -/
def execEvent (ph : Phase) (wid : String) (st : EngineState) : AuditEvent :=
  mkEvent st.nextEventNum ("kb.intent." ++ phaseName ph ++ ".v1") st.now
    ("phase " ++ phaseName ph ++ " completed for " ++ wid)

/-- The `PhaseResult` one execution of the phase body produces: the phase's
artifacts, evidence references, the completion event's id, the engine
clock, and the mode in force at execution time. -/
def execResult (cfg : ModeConfig) (wid : String) (ph : Phase)
    (st : EngineState) : PhaseResult :=
  { phase := ph, written_paths := phaseArtifacts ph wid,
    evidence_refs := ["sha256:" ++ wid, "sbom:" ++ wid],
    cloudevent_ids := [freshEventId st.nextEventNum], ts := st.now,
    mode := cfg.mode }

/-- Modelled from the spec: the phase-specific body (spec steps 3–5) —
write the phase's artifacts, emit the phase-completion audit event, collect
its id, construct the `PhaseResult` with the current mode and timestamp,
persist it under `(workflow_id, run_id)`, and return the success envelope.
`execCount` counts executions of this body. -/
def executePhase (cfg : ModeConfig) (sinkUp : Bool) (wid rid : String)
    (ph : Phase) (st : EngineState) : Response × EngineState :=
  (Response.success wid rid (execResult cfg wid ph st),
   { st with results := st.results ++ [((wid, rid), execResult cfg wid ph st)],
             emitter := (emit sinkUp (execEvent ph wid st) st.emitter).2,
             files := st.files ++ phaseArtifacts ph wid,
             execCount := st.execCount + 1,
             nextEventNum := st.nextEventNum + 1 })

/-- Modelled from the spec (step 2 onward): if `paths_to_write` is non-empty
run the validator on the normalized paths; on failure emit a single audit
event recording the denial and return the error envelope with the event id —
no files are written and no phase body runs; otherwise execute the phase
body. -/
def handleValidated (cfg : ModeConfig) (sinkUp : Bool) (wid rid : String)
    (req : WorkflowRequest) (ph : Phase) (st : EngineState) :
    Response × EngineState :=
  if req.paths_to_write.isEmpty then executePhase cfg sinkUp wid rid ph st
  else
    match validatePaths (fun p pat => matchGlob p pat) defaultRules
        (req.paths_to_write.map (stripRoot repoRoot)) with
    | Except.ok () => executePhase cfg sinkUp wid rid ph st
    | Except.error (p, e) =>
      let ev := mkEvent st.nextEventNum "kb.path.denied.v1" st.now
        (pathErrorDetail p e)
      let (evId, em1) := emit sinkUp ev st.emitter
      (Response.failure "path not allowed" (pathErrorDetail p e) wid (some evId),
       { st with emitter := em1, nextEventNum := st.nextEventNum + 1 })

/-- Modelled from the spec: one request against the engine.  Step 1
short-circuits on a stored result for `(workflow_id, run_id)`, returning it
verbatim with no state change; a declared phase that does not match the
invoked endpoint is rejected; otherwise validation and the phase body run
as in `handleValidated`.  Per-key mutual exclusion on the run registry
serializes requests sharing a key, so concurrent identical requests are
modelled as a sequence of calls (`processN`). -/
def handleRequest (cfg : ModeConfig) (sinkUp : Bool) (wid rid : String)
    (req : WorkflowRequest) (endpointPhase : Phase) (st : EngineState) :
    Response × EngineState :=
  match lookupResult st wid rid with
  | some res => (Response.success wid rid res, st)
  | none =>
    match req.phase with
    | some p =>
      if p = endpointPhase then handleValidated cfg sinkUp wid rid req endpointPhase st
      else
        (Response.failure "phase mismatch"
          ("declared phase " ++ phaseName p ++ " does not match endpoint " ++
            phaseName endpointPhase) wid none, st)
    | none => handleValidated cfg sinkUp wid rid req endpointPhase st

/-- N identical requests for the same `(workflow_id, run_id)`, serialized by
the registry's per-key mutual exclusion. -/
def processN (cfg : ModeConfig) (sinkUp : Bool) (wid rid : String)
    (req : WorkflowRequest) (ph : Phase) :
    Nat → EngineState → List Response × EngineState
  | 0, st => ([], st)
  | Nat.succ n, st =>
    let (r, st1) := handleRequest cfg sinkUp wid rid req ph st
    let (rs, st2) := processN cfg sinkUp wid rid req ph n st1
    (r :: rs, st2)

/-- Modelled from the spec: `GET /health` — `{status, mode}` with the
response header `x-kb-mode` mirroring `mode`. -/
structure HealthResponse where
  status : String
  mode : String
  headerMode : String
deriving DecidableEq, Repr

/-- Modelled from the spec: the health endpoint. -/
def health (cfg : ModeConfig) (degraded : Bool) : HealthResponse :=
  { status := if degraded then "degraded" else "ok",
    mode := cfg.mode, headerMode := cfg.mode }

/-! ## Mode/Worldview Switch Coordinator -/

/-- Modelled from the spec: `WorldviewSwitch` — target policy-bundle version
and target access-model id. -/
structure WorldviewSwitch where
  targetBundle : String
  targetModel : String
deriving DecidableEq, Repr

/-- Modelled from the spec: `SwitchError` kinds relevant here. -/
inductive SwitchError where
  | prepareFailed (what : String)
  | conflict
deriving DecidableEq, Repr

/-- Modelled from the spec: the committed switch outcome reported to the
caller. -/
structure SwitchOutcome where
  bundleVersion : String
  fgaModelId : String
  effectiveAt : Nat
deriving DecidableEq, Repr

/-- Modelled from the spec: the two-phase `switch` — *prepare* validates
that the target bundle version and access-model id both exist and are
loadable (oracles `loadableBundle`, `loadableModel`) without changing
anything; *commit* atomically flips both live pointers in `ModeConfig`
together.  Returns the (possibly updated) config and the outcome. -/
def switchMode (loadableBundle loadableModel : String → Bool) (now : Nat)
    (t : WorldviewSwitch) (cfg : ModeConfig) :
    ModeConfig × Except SwitchError SwitchOutcome :=
  if !loadableBundle t.targetBundle then
    (cfg, Except.error (SwitchError.prepareFailed "policy bundle not loadable"))
  else if !loadableModel t.targetModel then
    (cfg, Except.error (SwitchError.prepareFailed "access model not loadable"))
  else
    ({ cfg with bundleVersion := t.targetBundle, accessModelId := t.targetModel },
     Except.ok { bundleVersion := t.targetBundle, fgaModelId := t.targetModel,
                 effectiveAt := now })

/-! ## Example inputs for concrete instantiations -/

/-- An example mode configuration (TESTING.md: mode `FAKE`, file sink). -/
def cfg0 : ModeConfig :=
  { mode := "FAKE", eventsSink := "file", bundleVersion := "v1", accessModelId := "m1" }

/-- The engine's initial state. -/
def st0 : EngineState :=
  { results := [], emitter := { journal := [], delivered := [] },
    files := [], execCount := 0, nextEventNum := 0, now := 0 }

/-- The smoke request from the `Makefile` (`kb-smoke`): task `smoke`, notes
`fake`, no declared phase, no paths. -/
def req0 : WorkflowRequest :=
  { task := "smoke", notes := some "fake", phase := none, paths_to_write := [] }

/-- The TESTING.md path-validation request: write to
`/workspace/.git/config`. -/
def reqGit : WorkflowRequest :=
  { task := "x", notes := none, phase := none,
    paths_to_write := ["/workspace/.git/config"] }

/-! # Theorems -/

/-! ## Generic list helper lemmas -/

theorem find?_append_of_none {α : Type} (p : α → Bool) (l1 l2 : List α)
    (h : l1.find? p = none) : (l1 ++ l2).find? p = l2.find? p := by
  induction l1 with
  | nil => simp
  | cons x xs ih =>
    cases hx : p x with
    | true =>
      rw [List.find?_cons_of_pos _ hx] at h
      exact absurd h (by simp)
    | false =>
      rw [List.find?_cons_of_neg _ (by simp [hx])] at h
      rw [List.cons_append, List.find?_cons_of_neg _ (by simp [hx])]
      exact ih h

theorem find?_append_exists {α : Type} (p : α → Bool) (l : List α) (a : α)
    (h : p a = true) : ∃ b, (l ++ [a]).find? p = some b ∧ p b = true := by
  induction l with
  | nil => exact ⟨a, by simp [List.find?_cons, h], h⟩
  | cons x xs ih =>
    cases hx : p x with
    | true => exact ⟨x, by simp [List.find?_cons, hx], hx⟩
    | false =>
      obtain ⟨b, hb, hpb⟩ := ih
      exact ⟨b, by simpa [List.find?_cons, hx] using hb, hpb⟩

/-! ## C10 -/

/-- C10: the `scc` subcommand scans the first positional argument when one is
given and `.` otherwise; it returns an error exactly when executing the
external `scc --ci <target>` process fails, and on success it logs the
combined output (prefixed by a newline) and returns nil. -/
theorem scc_cmd_contract (w : String → ExecResult) (args : List String) :
    sccTarget [] = "." ∧
    (∀ (a : String) (rest : List String), sccTarget (a :: rest) = a) ∧
    (sccRunE w args).2 = (w (sccTarget args)).execErr ∧
    (sccRunE w args).1 =
      (match (w (sccTarget args)).execErr with
       | some _ => none
       | none => some ("\n" ++ (w (sccTarget args)).output)) := by
  refine ⟨rfl, fun a rest => rfl, ?_, ?_⟩ <;>
  · unfold sccRunE
    cases h : (w (sccTarget args)).execErr <;> simp [h]

/-! ## C8 -/

/-- C8: `sg.Client.GraphQL` attempts the primary endpoint exactly when it is
non-empty, attempts the fallback exactly when the fallback is configured and
the primary was absent, errored or answered with status `>= 300`, returns the
both-endpoints-failed error exactly when no attempted endpoint succeeded with
status `< 300`, and with both `SG_URL` and `LOCAL_SG_ENDPOINT` unset every
call returns that error without attempting (hence without decoding)
anything. -/
theorem graphql_fallback_contract (c : Client) (w : String → AttemptResult) :
    ((graphQL c w).1 =
      (if c.primary = "" then [] else [c.primary]) ++
      (if fallbackTried c w then [c.fallback] else [])) ∧
    ((graphQL c w).2 = some GQLError.bothFailed ↔
      ∀ u ∈ (graphQL c w).1, attemptOk (w u) = false) ∧
    (∀ tok, graphQL (newClient "" "" tok) w = ([], some GQLError.bothFailed)) := by
  refine ⟨?_, ?_, fun tok => rfl⟩
  · by_cases hp : c.primary = ""
    · by_cases hf : c.fallback = ""
      · simp [graphQL, tryFallback, fallbackTried, hp, hf]
      · cases ho : attemptOk (w c.fallback) <;>
          simp [graphQL, tryFallback, fallbackTried, hp, hf, ho]
    · cases ho : attemptOk (w c.primary)
      · by_cases hf : c.fallback = ""
        · simp [graphQL, tryFallback, fallbackTried, hp, hf, ho]
        · cases ho2 : attemptOk (w c.fallback) <;>
            simp [graphQL, tryFallback, fallbackTried, hp, hf, ho, ho2]
      · simp [graphQL, tryFallback, fallbackTried, hp, ho]
  · by_cases hp : c.primary = ""
    · by_cases hf : c.fallback = ""
      · simp [graphQL, tryFallback, hp, hf]
      · cases ho : attemptOk (w c.fallback)
        · simp [graphQL, tryFallback, hp, hf, ho]
        · cases hd : (w c.fallback).decodeErr <;>
            simp [graphQL, tryFallback, hp, hf, ho, hd]
    · cases ho : attemptOk (w c.primary)
      · by_cases hf : c.fallback = ""
        · simp [graphQL, tryFallback, hp, hf, ho]
        · cases ho2 : attemptOk (w c.fallback)
          · simp [graphQL, tryFallback, hp, hf, ho, ho2]
          · cases hd : (w c.fallback).decodeErr <;>
              simp [graphQL, tryFallback, hp, hf, ho, ho2, hd]
      · cases hd : (w c.primary).decodeErr <;>
          simp [graphQL, tryFallback, hp, ho, hd]

/-! ## C4 -/

/-- C4: a worldview switch whose prepare stage fails leaves `ModeConfig`
completely unchanged and returns the failure; and in every case the
resulting configuration either keeps both live pointers (policy-bundle
version and access-model id) or moves both to the requested targets with a
committed outcome — never just one of the two. -/
theorem switch_atomic (lb lm : String → Bool) (now : Nat)
    (t : WorldviewSwitch) (cfg : ModeConfig) :
    ((switchMode lb lm now t cfg).2.isOk = false →
      (switchMode lb lm now t cfg).1 = cfg) ∧
    (((switchMode lb lm now t cfg).1.bundleVersion = cfg.bundleVersion ∧
      (switchMode lb lm now t cfg).1.accessModelId = cfg.accessModelId) ∨
     ((switchMode lb lm now t cfg).1.bundleVersion = t.targetBundle ∧
      (switchMode lb lm now t cfg).1.accessModelId = t.targetModel ∧
      (switchMode lb lm now t cfg).2.isOk = true)) := by
  cases hb : lb t.targetBundle <;> cases hm : lm t.targetModel <;>
    simp [switchMode, hb, hm, Except.isOk, Except.toBool]

/-- Witness for C4 at a concrete input: with no loadable bundle, the switch
reports a failure and the configuration is unchanged. -/
theorem switch_atomic_witness :
    (switchMode (fun _ => false) (fun _ => true) 7
      { targetBundle := "v2", targetModel := "m2" } cfg0).1 = cfg0 :=
  (switch_atomic (fun _ => false) (fun _ => true) 7
    { targetBundle := "v2", targetModel := "m2" } cfg0).1 (by rfl)

/-! ## C2 -/

/-- C2: for every pattern matcher, every rule set and every path, the Path
Allowlist Validator accepts the path iff it matches at least one allow rule
and no deny rule; and whenever the path matches some deny rule (even if an
allow rule also matches) the result is a `Denied` error for a matching deny
pattern, never success. -/
theorem validator_writable_iff (pmatch : String → String → Bool)
    (rules : Rules) (p : String) :
    (validatePath pmatch rules p = Except.ok () ↔
      ((∃ pat ∈ rules.allow, pmatch p pat = true) ∧
       ∀ pat ∈ rules.deny, pmatch p pat = false)) ∧
    ((∃ pat ∈ rules.deny, pmatch p pat = true) →
      ∃ pat, validatePath pmatch rules p = Except.error (PathError.denied pat) ∧
        pmatch p pat = true) := by
  constructor
  · cases hd : rules.deny.find? (fun pat => pmatch p pat) with
    | some pat =>
      have hpat : pmatch p pat = true := List.find?_some hd
      have hmem : pat ∈ rules.deny := List.mem_of_find?_eq_some hd
      simp only [validatePath, hd]
      constructor
      · intro h; exact absurd h (by simp)
      · rintro ⟨-, hall⟩
        exact absurd hpat (by simp [hall pat hmem])
    | none =>
      have hnone : ∀ pat ∈ rules.deny, ¬ pmatch p pat = true :=
        List.find?_eq_none.mp hd
      simp only [validatePath, hd]
      cases ha : rules.allow.any (fun pat => pmatch p pat) with
      | true =>
        simp only [if_pos rfl, ha]
        constructor
        · intro _
          refine ⟨List.any_eq_true.mp ha, fun pat hm => ?_⟩
          exact Bool.not_eq_true _ ▸ Bool.of_not_eq_true (hnone pat hm)
        · intro _; rfl
      | false =>
        rw [if_neg Bool.false_ne_true]
        constructor
        · intro h; exact absurd h (by simp)
        · rintro ⟨⟨pat, hm, hpat⟩, -⟩
          have := List.any_eq_true.mpr ⟨pat, hm, hpat⟩
          simp [ha] at this
  · rintro ⟨pat, hmem, hpat⟩
    cases hd : rules.deny.find? (fun pat => pmatch p pat) with
    | some pat2 =>
      exact ⟨pat2, by simp [validatePath, hd], List.find?_some hd⟩
    | none =>
      exact absurd hpat (by simp [List.find?_eq_none.mp hd pat hmem])

/-- Witness for C2 at a concrete input: under equality matching with `/a`
both allowed and denied, the path `/a` is denied, not accepted. -/
theorem validator_writable_iff_witness :
    ∃ pat, validatePath (fun q pat => q == pat)
        { allow := ["/a"], deny := ["/a"] } "/a" =
        Except.error (PathError.denied pat) ∧
      (("/a" : String) == pat) = true :=
  (validator_writable_iff (fun q pat => q == pat)
    { allow := ["/a"], deny := ["/a"] } "/a").2 ⟨"/a", by simp, by decide⟩

/-! ## C9 -/

theorem printLineMatches_ok (lms : List JSON) :
    printLineMatches lms = Except.ok () ↔ lms.all isObjJ = true := by
  induction lms with
  | nil => simp [printLineMatches]
  | cons lm rest ih =>
    cases lm <;>
      simp [printLineMatches, assertObj, isObjJ, Bind.bind, Except.bind, ih]

theorem printFileMatch_ok (item : JSON) :
    printFileMatch item = Except.ok () ↔ fileMatchOk item = true := by
  cases item with
  | obj fm =>
    cases hf : jlookup fm "file" <;> cases hl : jlookup fm "lineMatches" <;>
      simp [printFileMatch, fileMatchOk, assertObj, assertArr, isObjJ,
        Bind.bind, Except.bind, hf, hl, printLineMatches_ok]
  | null => simp [printFileMatch, fileMatchOk, assertObj, Bind.bind, Except.bind]
  | bool b => simp [printFileMatch, fileMatchOk, assertObj, Bind.bind, Except.bind]
  | num n => simp [printFileMatch, fileMatchOk, assertObj, Bind.bind, Except.bind]
  | str s => simp [printFileMatch, fileMatchOk, assertObj, Bind.bind, Except.bind]
  | arr es => simp [printFileMatch, fileMatchOk, assertObj, Bind.bind, Except.bind]

theorem printAllMatches_ok (items : List JSON) :
    printAllMatches items = Except.ok () ↔ items.all fileMatchOk = true := by
  induction items with
  | nil => simp [printAllMatches]
  | cons item rest ih =>
    simp only [printAllMatches, List.all_cons, Bool.and_eq_true]
    cases hpm : printFileMatch item with
    | error e =>
      simp [Bind.bind, Except.bind, hpm, ih, ← printFileMatch_ok]
    | ok u =>
      cases u
      have hok : fileMatchOk item = true := (printFileMatch_ok item).mp hpm
      simp [Bind.bind, Except.bind, hpm, hok, ih]

/-- C9 counterexample: the claim asserts that a response lacking the
`matchCount` key panics, but the source only prints
`results["matchCount"]` with `%v` and performs no type assertion on it —
on a response whose `results` object lacks `matchCount` yet nests
correctly otherwise, `RunE` returns normally. -/
theorem find_matchCount_not_asserted :
    findRunE respNoMatchCount = Except.ok () ∧
    jlookup [("results", JSON.arr [])] "matchCount" = JSON.null :=
  ⟨rfl, rfl⟩

/-- C9 (amended): `find`'s `RunE` performs unchecked type assertions on
`out["data"]`, `data["search"]`, `search["results"]`, the inner
`results["results"]` array, and each file-match element (the item, its
`file` object, its `lineMatches` array and that array's elements); it
panics exactly when one of those positions is missing or differently
shaped, and returns normally exactly when that nesting (which does not
involve `matchCount`) is as expected. -/
theorem find_assertions_iff (out : List (String × JSON)) :
    findRunE out = Except.ok () ↔ wellNested out = true := by
  simp only [findRunE, wellNested]
  cases h1 : jlookup out "data" with
  | obj data =>
    cases h2 : jlookup data "search" with
    | obj search =>
      cases h3 : jlookup search "results" with
      | obj results =>
        cases h4 : jlookup results "results" with
        | arr items =>
          simp [assertObj, assertArr, Bind.bind, Except.bind, h1, h2, h3, h4,
            printAllMatches_ok]
        | null => simp [assertObj, assertArr, Bind.bind, Except.bind, h1, h2, h3, h4]
        | bool b => simp [assertObj, assertArr, Bind.bind, Except.bind, h1, h2, h3, h4]
        | num n => simp [assertObj, assertArr, Bind.bind, Except.bind, h1, h2, h3, h4]
        | str s => simp [assertObj, assertArr, Bind.bind, Except.bind, h1, h2, h3, h4]
        | obj f => simp [assertObj, assertArr, Bind.bind, Except.bind, h1, h2, h3, h4]
      | null => simp [assertObj, Bind.bind, Except.bind, h1, h2, h3]
      | bool b => simp [assertObj, Bind.bind, Except.bind, h1, h2, h3]
      | num n => simp [assertObj, Bind.bind, Except.bind, h1, h2, h3]
      | str s => simp [assertObj, Bind.bind, Except.bind, h1, h2, h3]
      | arr es => simp [assertObj, Bind.bind, Except.bind, h1, h2, h3]
    | null => simp [assertObj, Bind.bind, Except.bind, h1, h2]
    | bool b => simp [assertObj, Bind.bind, Except.bind, h1, h2]
    | num n => simp [assertObj, Bind.bind, Except.bind, h1, h2]
    | str s => simp [assertObj, Bind.bind, Except.bind, h1, h2]
    | arr es => simp [assertObj, Bind.bind, Except.bind, h1, h2]
  | null => simp [assertObj, Bind.bind, Except.bind, h1]
  | bool b => simp [assertObj, Bind.bind, Except.bind, h1]
  | num n => simp [assertObj, Bind.bind, Except.bind, h1]
  | str s => simp [assertObj, Bind.bind, Except.bind, h1]
  | arr es => simp [assertObj, Bind.bind, Except.bind, h1]

/-! ## Engine lemmas -/

theorem handleValidated_success_eq (cfg : ModeConfig) (s : Bool)
    (wid rid : String) (req : WorkflowRequest) (ph : Phase) (st : EngineState)
    (res : PhaseResult)
    (hsucc : (handleValidated cfg s wid rid req ph st).1 =
      Response.success wid rid res) :
    handleValidated cfg s wid rid req ph st = executePhase cfg s wid rid ph st := by
  by_cases he : req.paths_to_write.isEmpty = true
  · simp [handleValidated, he]
  · cases hv : validatePaths (fun q pat => matchGlob q pat) defaultRules
        (req.paths_to_write.map (stripRoot repoRoot)) with
    | ok u => cases u; simp [handleValidated, he, hv]
    | error pe =>
      obtain ⟨p, e⟩ := pe
      simp [handleValidated, he, hv] at hsucc

theorem handleRequest_fresh_success_eq (cfg : ModeConfig) (s : Bool)
    (wid rid : String) (req : WorkflowRequest) (ph : Phase) (st : EngineState)
    (res : PhaseResult) (hfresh : lookupResult st wid rid = none)
    (hsucc : (handleRequest cfg s wid rid req ph st).1 =
      Response.success wid rid res) :
    handleRequest cfg s wid rid req ph st = executePhase cfg s wid rid ph st := by
  simp only [handleRequest, hfresh] at hsucc ⊢
  cases hp : req.phase with
  | none =>
    simp only [hp] at hsucc ⊢
    exact handleValidated_success_eq cfg s wid rid req ph st res hsucc
  | some p =>
    simp only [hp] at hsucc ⊢
    by_cases hpe : p = ph
    · simp only [if_pos hpe] at hsucc ⊢
      exact handleValidated_success_eq cfg s wid rid req ph st res hsucc
    · simp only [if_neg hpe] at hsucc
      exact absurd hsucc (by simp)

theorem handleRequest_success_lookup (cfg : ModeConfig) (s : Bool)
    (wid rid : String) (req : WorkflowRequest) (ph : Phase) (st : EngineState)
    (res : PhaseResult)
    (hsucc : (handleRequest cfg s wid rid req ph st).1 =
      Response.success wid rid res) :
    lookupResult (handleRequest cfg s wid rid req ph st).2 wid rid = some res := by
  cases hl : lookupResult st wid rid with
  | some r =>
    have heq : handleRequest cfg s wid rid req ph st =
        (Response.success wid rid r, st) := by
      simp [handleRequest, hl]
    rw [heq] at hsucc
    simp only [Response.success.injEq] at hsucc
    rw [heq]
    show lookupResult st wid rid = some res
    rw [hl, hsucc.2.2]
  | none =>
    have heq := handleRequest_fresh_success_eq cfg s wid rid req ph st res hl hsucc
    rw [heq] at hsucc ⊢
    have hres : execResult cfg wid ph st = res := by
      simpa [executePhase] using hsucc
    have hn : st.results.find? (fun e => e.1.1 == wid && e.1.2 == rid) = none := by
      simp only [lookupResult] at hl
      exact Option.map_eq_none'.mp hl
    simp only [executePhase, lookupResult]
    rw [find?_append_of_none _ _ _ hn]
    simp [List.find?_cons, hres]

theorem handleRequest_replay (cfg cfg2 : ModeConfig) (s s2 : Bool)
    (wid rid : String) (req req2 : WorkflowRequest) (ph ph2 : Phase)
    (st : EngineState) (res : PhaseResult)
    (hsucc : (handleRequest cfg s wid rid req ph st).1 =
      Response.success wid rid res) :
    handleRequest cfg2 s2 wid rid req2 ph2
        (handleRequest cfg s wid rid req ph st).2 =
      (Response.success wid rid res,
       (handleRequest cfg s wid rid req ph st).2) := by
  have hl := handleRequest_success_lookup cfg s wid rid req ph st res hsucc
  generalize (handleRequest cfg s wid rid req ph st).2 = st1 at hl ⊢
  simp [handleRequest, hl]

theorem processN_cached (cfg : ModeConfig) (s : Bool) (wid rid : String)
    (req : WorkflowRequest) (ph : Phase) (res : PhaseResult) :
    ∀ (m : Nat) (st : EngineState), lookupResult st wid rid = some res →
      processN cfg s wid rid req ph m st =
        (List.replicate m (Response.success wid rid res), st) := by
  intro m
  induction m with
  | zero => intro st h; simp [processN]
  | succ n ih =>
    intro st h
    have heq : handleRequest cfg s wid rid req ph st =
        (Response.success wid rid res, st) := by
      simp [handleRequest, h]
    simp [processN, heq, ih st h, List.replicate]

/-! ## C1 -/

/-- C1: a second request bearing the same `(workflow_id, run_id)` as a
request that returned a stored `PhaseResult` returns that stored result
verbatim and leaves the entire engine state — result store, audit journal,
files, execution counter — untouched: no writes and no new audit events on
the replay, for every phase, request body, configuration and sink
availability. -/
theorem replay_idempotent (cfg cfg2 : ModeConfig) (s s2 : Bool)
    (wid rid : String) (req req2 : WorkflowRequest) (ph ph2 : Phase)
    (st : EngineState) (res : PhaseResult)
    (hsucc : (handleRequest cfg s wid rid req ph st).1 =
      Response.success wid rid res) :
    handleRequest cfg2 s2 wid rid req2 ph2
        (handleRequest cfg s wid rid req ph st).2 =
      (Response.success wid rid res,
       (handleRequest cfg s wid rid req ph st).2) :=
  handleRequest_replay cfg cfg2 s s2 wid rid req req2 ph ph2 st res hsucc

/-- Witness for C1: replaying the smoke PLAN request with the same pair
returns the stored result and changes nothing, even with the sink down on
the replay. -/
theorem replay_idempotent_witness :
    handleRequest cfg0 false "w1" "r1" req0 Phase.PLAN
        (handleRequest cfg0 true "w1" "r1" req0 Phase.PLAN st0).2 =
      (Response.success "w1" "r1" (execResult cfg0 "w1" Phase.PLAN st0),
       (handleRequest cfg0 true "w1" "r1" req0 Phase.PLAN st0).2) :=
  replay_idempotent cfg0 cfg0 true false "w1" "r1" req0 req0 Phase.PLAN
    Phase.PLAN st0 (execResult cfg0 "w1" Phase.PLAN st0) rfl

/-! ## C6 -/

/-- C6: N serialized identical requests (the registry's per-key mutual
exclusion serializes requests sharing a key) for a fresh
`(workflow_id, run_id)` whose first execution succeeds run the phase body
exactly once — the execution counter rises by exactly one — and all N
responses are identical. -/
theorem at_most_once_per_run (cfg : ModeConfig) (s : Bool) (wid rid : String)
    (req : WorkflowRequest) (ph : Phase) (st : EngineState) (res : PhaseResult)
    (n : Nat) (hfresh : lookupResult st wid rid = none)
    (hsucc : (handleRequest cfg s wid rid req ph st).1 =
      Response.success wid rid res) :
    (processN cfg s wid rid req ph (n + 1) st).1 =
      List.replicate (n + 1) (Response.success wid rid res) ∧
    (processN cfg s wid rid req ph (n + 1) st).2.execCount = st.execCount + 1 := by
  have heq := handleRequest_fresh_success_eq cfg s wid rid req ph st res hfresh hsucc
  have hl := handleRequest_success_lookup cfg s wid rid req ph st res hsucc
  rw [heq] at hl
  have hrest := processN_cached cfg s wid rid req ph res n
    (executePhase cfg s wid rid ph st).2 hl
  have hres1 : (executePhase cfg s wid rid ph st).1 =
      Response.success wid rid res := by
    rw [← heq]; exact hsucc
  constructor
  · simp [processN, heq, hrest, hres1, List.replicate]
  · have h2 : (processN cfg s wid rid req ph (n + 1) st).2 =
        (executePhase cfg s wid rid ph st).2 := by
      simp [processN, heq, hrest]
    rw [h2]
    simp [executePhase]

/-- Witness for C6: three identical smoke requests execute the phase body
once and all three answers coincide. -/
theorem at_most_once_per_run_witness :
    (processN cfg0 true "w1" "r1" req0 Phase.PLAN (2 + 1) st0).1 =
      List.replicate (2 + 1)
        (Response.success "w1" "r1" (execResult cfg0 "w1" Phase.PLAN st0)) ∧
    (processN cfg0 true "w1" "r1" req0 Phase.PLAN (2 + 1) st0).2.execCount =
      st0.execCount + 1 :=
  at_most_once_per_run cfg0 true "w1" "r1" req0 Phase.PLAN st0
    (execResult cfg0 "w1" Phase.PLAN st0) 2 rfl rfl

/-! ## C5 -/

/-- C5: every event ever appended to the emitter's journal is retrievable by
`get` whether or not downstream delivery completed; consequently a fresh,
successfully returned `PhaseResult` carries at least one audit event id and
each of its event ids is retrievable from the journal after the request —
for every sink availability, in particular with the sink unreachable. -/
theorem audit_durability (cfg : ModeConfig) (s : Bool) (wid rid : String)
    (req : WorkflowRequest) (ph : Phase) (st : EngineState) (res : PhaseResult)
    (hfresh : lookupResult st wid rid = none)
    (hsucc : (handleRequest cfg s wid rid req ph st).1 =
      Response.success wid rid res) :
    (∀ (em : EmitterState) (up : Bool) (ev : AuditEvent),
      ∃ e2, getEvent (emit up ev em).2 ev.id = some e2 ∧ e2.id = ev.id) ∧
    res.cloudevent_ids ≠ [] ∧
    ∀ i ∈ res.cloudevent_ids,
      ∃ e2, getEvent (handleRequest cfg s wid rid req ph st).2.emitter i =
          some e2 ∧ e2.id = i := by
  have heq := handleRequest_fresh_success_eq cfg s wid rid req ph st res hfresh hsucc
  have hres : execResult cfg wid ph st = res := by
    rw [heq] at hsucc
    simpa [executePhase] using hsucc
  refine ⟨?_, ?_, ?_⟩
  · intro em up ev
    obtain ⟨b, hb, hpb⟩ :=
      find?_append_exists (fun e => e.id == ev.id) em.journal ev (by simp)
    refine ⟨b, ?_, by simpa using hpb⟩
    cases up <;> simpa [emit, getEvent] using hb
  · rw [← hres]; simp [execResult]
  · intro i hi
    rw [← hres] at hi
    simp only [execResult, List.mem_singleton] at hi
    subst hi
    rw [heq]
    obtain ⟨b, hb, hpb⟩ :=
      find?_append_exists (fun e => e.id == freshEventId st.nextEventNum)
        st.emitter.journal (execEvent ph wid st) (by simp [execEvent, mkEvent])
    refine ⟨b, ?_, by simpa using hpb⟩
    cases s <;> simpa [executePhase, emit, getEvent] using hb

/-- Witness for C5: with the sink down, the smoke PLAN request's event ids
are all retrievable from the journal. -/
theorem audit_durability_witness :
    (∀ (em : EmitterState) (up : Bool) (ev : AuditEvent),
      ∃ e2, getEvent (emit up ev em).2 ev.id = some e2 ∧ e2.id = ev.id) ∧
    (execResult cfg0 "w1" Phase.PLAN st0).cloudevent_ids ≠ [] ∧
    ∀ i ∈ (execResult cfg0 "w1" Phase.PLAN st0).cloudevent_ids,
      ∃ e2, getEvent
          (handleRequest cfg0 false "w1" "r1" req0 Phase.PLAN st0).2.emitter i =
          some e2 ∧ e2.id = i :=
  audit_durability cfg0 false "w1" "r1" req0 Phase.PLAN st0
    (execResult cfg0 "w1" Phase.PLAN st0) rfl rfl

/-! ## C3 -/

/-- C3: a request on a fresh `(workflow_id, run_id)` whose path validation
fails is answered with an error envelope carrying `error = "path not
allowed"`, the human-readable detail (for a deny match: `Path <p> matches
deny pattern: <pattern>`), the workflow id and the id of exactly one newly
emitted audit event; no file is written, no result is stored and the phase
body never runs. -/
theorem validation_failure_envelope (cfg : ModeConfig) (s : Bool)
    (wid rid : String) (req : WorkflowRequest) (ph : Phase) (st : EngineState)
    (p : String) (e : PathError)
    (hfresh : lookupResult st wid rid = none)
    (hph : req.phase = none ∨ req.phase = some ph)
    (hval : validatePaths (fun q pat => matchGlob q pat) defaultRules
      (req.paths_to_write.map (stripRoot repoRoot)) = Except.error (p, e)) :
    handleRequest cfg s wid rid req ph st =
      (Response.failure "path not allowed" (pathErrorDetail p e) wid
        (some (freshEventId st.nextEventNum)),
       { st with
           emitter := (emit s (mkEvent st.nextEventNum "kb.path.denied.v1"
             st.now (pathErrorDetail p e)) st.emitter).2,
           nextEventNum := st.nextEventNum + 1 }) ∧
    (handleRequest cfg s wid rid req ph st).2.emitter.journal =
      st.emitter.journal ++
        [mkEvent st.nextEventNum "kb.path.denied.v1" st.now (pathErrorDetail p e)] ∧
    (handleRequest cfg s wid rid req ph st).2.files = st.files ∧
    (handleRequest cfg s wid rid req ph st).2.results = st.results ∧
    (handleRequest cfg s wid rid req ph st).2.execCount = st.execCount := by
  have hne : req.paths_to_write ≠ [] := by
    intro h0
    rw [h0] at hval
    simp [validatePaths] at hval
  have hmain : handleRequest cfg s wid rid req ph st =
      (Response.failure "path not allowed" (pathErrorDetail p e) wid
        (some (freshEventId st.nextEventNum)),
       { st with
           emitter := (emit s (mkEvent st.nextEventNum "kb.path.denied.v1"
             st.now (pathErrorDetail p e)) st.emitter).2,
           nextEventNum := st.nextEventNum + 1 }) := by
    rcases hph with hph | hph <;>
      simp [handleRequest, hfresh, hph, handleValidated, hne, hval, emit, mkEvent]
  refine ⟨hmain, ?_, ?_, ?_, ?_⟩
  · rw [hmain]; cases s <;> simp [emit]
  · rw [hmain]
  · rw [hmain]
  · rw [hmain]

/-- Witness for C3: the TESTING.md request writing `/workspace/.git/config`
is rejected with the documented detail and event id, and writes nothing. -/
theorem validation_failure_envelope_witness :
    (handleRequest cfg0 false "w1" "r1" reqGit Phase.PLAN st0).1 =
      Response.failure "path not allowed"
        "Path /.git/config matches deny pattern: /.git/**" "w1"
        (some "event-0") ∧
    (handleRequest cfg0 false "w1" "r1" reqGit Phase.PLAN st0).2.files =
      st0.files ∧
    (handleRequest cfg0 false "w1" "r1" reqGit Phase.PLAN st0).2.results =
      st0.results :=
  have h := validation_failure_envelope cfg0 false "w1" "r1" reqGit Phase.PLAN
    st0 "/.git/config" (PathError.denied "/.git/**") rfl (Or.inl rfl) rfl
  ⟨by rw [h.1]; exact rfl, h.2.2.1, h.2.2.2.1⟩

/-! ## C7 -/

/-- C7: a PLAN request with a task and empty `paths_to_write` on a fresh
`(workflow_id, run_id)` succeeds with `result.phase = PLAN`, a non-empty
`written_paths`, and `result.mode` equal to the mode `GET /health` reports
concurrently, whose `x-kb-mode` response header mirrors that mode. -/
theorem plan_smoke_contract (cfg : ModeConfig) (s degraded : Bool)
    (wid rid task : String) (notes : Option String) (st : EngineState)
    (hfresh : lookupResult st wid rid = none) :
    ∃ res,
      (handleRequest cfg s wid rid
        { task := task, notes := notes, phase := none, paths_to_write := [] }
        Phase.PLAN st).1 = Response.success wid rid res ∧
      res.phase = Phase.PLAN ∧
      res.written_paths ≠ [] ∧
      res.mode = (health cfg degraded).mode ∧
      (health cfg degraded).headerMode = (health cfg degraded).mode := by
  refine ⟨execResult cfg wid Phase.PLAN st, ?_, rfl, ?_, rfl, rfl⟩
  · simp [handleRequest, hfresh, handleValidated, executePhase]
  · simp [execResult, phaseArtifacts]

/-- Witness for C7: the Makefile smoke request against the initial engine
state. -/
theorem plan_smoke_contract_witness :
    ∃ res,
      (handleRequest cfg0 true "w1" "r1"
        { task := "smoke", notes := some "fake", phase := none,
          paths_to_write := [] } Phase.PLAN st0).1 =
        Response.success "w1" "r1" res ∧
      res.phase = Phase.PLAN ∧
      res.written_paths ≠ [] ∧
      res.mode = (health cfg0 false).mode ∧
      (health cfg0 false).headerMode = (health cfg0 false).mode :=
  plan_smoke_contract cfg0 true false "w1" "r1" "smoke" (some "fake") st0 rfl
